import Mathlib

/-!
Verification of the Melon launcher (`src/melonclient4k.py`).

The launcher's domain logic is shallowly embedded here:
* `validate_username` — the offline-username validator (lines 271–274);
* `md5` / `offlineId` — the deterministic offline-identifier derivation
  (lines 410–416), including a faithful model of the external MD5 digest
  and of Python's `str(uuid.UUID(bytes=...))` rendering;
* `resolveVersion` — the edition-to-version selection (lines 384–399);
* `launch` — the whole `_launch` sequencer, with the external
  `minecraft_launcher_lib` collaborator abstracted as an environment of
  possibly-failing calls, and the config file modelled as an association list.

Strings are modelled as `List Char`, byte strings as `List Nat`.
-/

set_option autoImplicit false
set_option maxRecDepth 40000

namespace Melon

/-- Character strings (Python `str`) as lists of Unicode code points. -/
abbrev Str := List Char

/-! ## UTF-8 encoding (Python `str.encode()` with the default codec) -/

/-- UTF-8 encoding of a single code point, as `bytes` values `< 256`. -/
def utf8EncodeChar (c : Char) : List Nat :=
  let n := c.toNat
  if n < 128 then [n]
  else if n < 2048 then [192 + n / 64, 128 + n % 64]
  else if n < 65536 then [224 + n / 4096, 128 + n / 64 % 64, 128 + n % 64]
  else [240 + n / 262144, 128 + n / 4096 % 64, 128 + n / 64 % 64, 128 + n % 64]

/-- UTF-8 encoding of a string. -/
def utf8Encode (s : Str) : List Nat := (s.map utf8EncodeChar).flatten

/-! ## MD5 (the external `hashlib.md5`, modelled from its standard definition) -/

/-- The word modulus of MD5, `2^32`. -/
def w32 : Nat := 4294967296

/-- The 64 MD5 round constants `floor(2^32 * |sin(i+1)|)`. -/
def md5K : List Nat :=
  [0xd76aa478, 0xe8c7b756, 0x242070db, 0xc1bdceee,
   0xf57c0faf, 0x4787c62a, 0xa8304613, 0xfd469501,
   0x698098d8, 0x8b44f7af, 0xffff5bb1, 0x895cd7be,
   0x6b901122, 0xfd987193, 0xa679438e, 0x49b40821,
   0xf61e2562, 0xc040b340, 0x265e5a51, 0xe9b6c7aa,
   0xd62f105d, 0x02441453, 0xd8a1e681, 0xe7d3fbc8,
   0x21e1cde6, 0xc33707d6, 0xf4d50d87, 0x455a14ed,
   0xa9e3e905, 0xfcefa3f8, 0x676f02d9, 0x8d2a4c8a,
   0xfffa3942, 0x8771f681, 0x6d9d6122, 0xfde5380c,
   0xa4beea44, 0x4bdecfa9, 0xf6bb4b60, 0xbebfbc70,
   0x289b7ec6, 0xeaa127fa, 0xd4ef3085, 0x04881d05,
   0xd9d4d039, 0xe6db99e5, 0x1fa27cf8, 0xc4ac5665,
   0xf4292244, 0x432aff97, 0xab9423a7, 0xfc93a039,
   0x655b59c3, 0x8f0ccc92, 0xffeff47d, 0x85845dd1,
   0x6fa87e4f, 0xfe2ce6e0, 0xa3014314, 0x4e0811a1,
   0xf7537e82, 0xbd3af235, 0x2ad7d2bb, 0xeb86d391]

/-- The 64 MD5 per-round left-rotation amounts. -/
def md5S : List Nat :=
  [7, 12, 17, 22, 7, 12, 17, 22, 7, 12, 17, 22, 7, 12, 17, 22,
   5, 9, 14, 20, 5, 9, 14, 20, 5, 9, 14, 20, 5, 9, 14, 20,
   4, 11, 16, 23, 4, 11, 16, 23, 4, 11, 16, 23, 4, 11, 16, 23,
   6, 10, 15, 21, 6, 10, 15, 21, 6, 10, 15, 21, 6, 10, 15, 21]

/-- Left rotation of a 32-bit word (`x < 2^32`). -/
def rotl32 (x n : Nat) : Nat := (x * 2 ^ n + x / 2 ^ (32 - n)) % w32

/-- Bitwise complement within 32 bits. -/
def not32 (x : Nat) : Nat := 4294967295 - x % w32

/-- The MD5 round nonlinear function for round `i`. -/
def md5F (i b c d : Nat) : Nat :=
  if i < 16 then (b &&& c) ||| (not32 b &&& d)
  else if i < 32 then (d &&& b) ||| (not32 d &&& c)
  else if i < 48 then b ^^^ c ^^^ d
  else c ^^^ (b ||| not32 d)

/-- The MD5 message-word index for round `i`. -/
def md5G (i : Nat) : Nat :=
  if i < 16 then i
  else if i < 32 then (5 * i + 1) % 16
  else if i < 48 then (3 * i + 5) % 16
  else 7 * i % 16

/-- The four 32-bit state words of MD5. -/
structure MD5State where
  a : Nat
  b : Nat
  c : Nat
  d : Nat
deriving DecidableEq

/-- The MD5 initialisation vector. -/
def md5Init : MD5State := ⟨0x67452301, 0xefcdab89, 0x98badcfe, 0x10325476⟩

/-- Little-endian 32-bit word `g` of a 64-byte chunk. -/
def md5Word (chunk : List Nat) (g : Nat) : Nat :=
  chunk.getD (4 * g) 0 + 256 * chunk.getD (4 * g + 1) 0 +
    65536 * chunk.getD (4 * g + 2) 0 + 16777216 * chunk.getD (4 * g + 3) 0

/-- One MD5 round. -/
def md5Step (chunk : List Nat) (st : MD5State) (i : Nat) : MD5State :=
  let f := (md5F i st.b st.c st.d + st.a + md5K.getD i 0 + md5Word chunk (md5G i)) % w32
  ⟨st.d, (st.b + rotl32 f (md5S.getD i 0)) % w32, st.b, st.c⟩

/-- Processing one 64-byte chunk: 64 rounds, then add to the incoming state. -/
def md5Chunk (st : MD5State) (chunk : List Nat) : MD5State :=
  let r := (List.range 64).foldl (md5Step chunk) st
  ⟨(st.a + r.a) % w32, (st.b + r.b) % w32, (st.c + r.c) % w32, (st.d + r.d) % w32⟩

/-- The four little-endian bytes of a 32-bit word. -/
def toLE4 (x : Nat) : List Nat :=
  [x % 256, x / 256 % 256, x / 65536 % 256, x / 16777216 % 256]

/-- The eight little-endian bytes of the 64-bit message bit length. -/
def md5LenBytes (len : Nat) : List Nat :=
  let b := 8 * len % 2 ^ 64
  [b % 256, b / 256 % 256, b / 65536 % 256, b / 16777216 % 256,
   b / 4294967296 % 256, b / 1099511627776 % 256,
   b / 281474976710656 % 256, b / 72057594037927936 % 256]

/-- MD5 padding: `0x80`, zeros to 56 mod 64, then the bit length. -/
def md5Pad (msg : List Nat) : List Nat :=
  msg ++ 128 :: List.replicate ((119 - msg.length % 64) % 64) 0 ++ md5LenBytes msg.length

/-- Split a byte string into 64-byte chunks (structural recursion on a fuel
argument so that the kernel can evaluate it; `fuel = l.length` suffices since
every step consumes at least one element). -/
def chunks64Aux : Nat → List Nat → List (List Nat)
  | 0, _ => []
  | _, [] => []
  | fuel + 1, a :: t => (a :: t).take 64 :: chunks64Aux fuel ((a :: t).drop 64)

/-- Split a byte string into 64-byte chunks. -/
def chunks64 (l : List Nat) : List (List Nat) := chunks64Aux l.length l

/-- The MD5 digest of a byte string: 16 bytes. -/
def md5 (msg : List Nat) : List Nat :=
  let r := (chunks64 (md5Pad msg)).foldl md5Chunk md5Init
  toLE4 r.a ++ toLE4 r.b ++ toLE4 r.c ++ toLE4 r.d

/-! ## The username validator (`_validate_username`, lines 271–274) -/

/-- One character of the regex class `[A-Za-z0-9_]`. -/
def isNameChar (c : Char) : Bool :=
  (65 ≤ c.toNat && c.toNat ≤ 90) || (97 ≤ c.toNat && c.toNat ≤ 122) ||
    (48 ≤ c.toNat && c.toNat ≤ 57) || c.toNat == 95

/-- The test `re.fullmatch(r"[A-Za-z0-9_]+", name)` as a Boolean: the whole string is a
nonempty run of class characters. -/
def fullmatchNameClass (s : Str) : Bool := !s.isEmpty && s.all isNameChar

/-- The validator `MelonLauncher._validate_username` (lines 271–274):
`bool(name and 3 <= len(name) <= 16 and re.fullmatch(r"[A-Za-z0-9_]+", name))`.
The truthiness test `name` is the nonemptiness check. -/
def validate_username (s : Str) : Bool :=
  !s.isEmpty && (decide (3 ≤ s.length) && decide (s.length ≤ 16)) && fullmatchNameClass s

/-- The validator contract as the specification words it: length between 3 and
16 inclusive and every character an ASCII letter, digit, or underscore. -/
def specValidUsername (s : Str) : Prop :=
  3 ≤ s.length ∧ s.length ≤ 16 ∧ ∀ c ∈ s, isNameChar c = true

instance (s : Str) : Decidable (specValidUsername s) := by
  unfold specValidUsername; infer_instance

/-! ## Offline identifier derivation (`_launch`, lines 410–416) -/

/-- The twiddled digest from `_launch`: MD5 of `"OfflinePlayer:" + username`
with `digest[6] = (digest[6] & 0x0F) | 0x30` and
`digest[8] = (digest[8] & 0x3F) | 0x80`. -/
def offlineDigest (username : Str) : List Nat :=
  let d := md5 (utf8Encode ("OfflinePlayer:".data ++ username))
  let d1 := d.set 6 ((d.getD 6 0 &&& 15) ||| 48)
  d1.set 8 ((d1.getD 8 0 &&& 63) ||| 128)

/-- A lowercase hexadecimal digit. -/
def hexDigit (n : Nat) : Char :=
  if n < 10 then Char.ofNat (48 + n) else Char.ofNat (87 + n)

/-- Fixed-width `k`-digit lowercase hexadecimal rendering of `n`, leading zeros kept
(Python `"%032x" % n` when `k = 32`). -/
def hexPad : Nat → Nat → Str
  | 0, _ => []
  | k + 1, n => hexPad k (n / 16) ++ [hexDigit (n % 16)]

/-- The big-endian integer of a byte string (`int.from_bytes(b, "big")`,
which is how `uuid.UUID(bytes=...)` stores its value). -/
def bytesToNatBE : List Nat → Nat
  | [] => 0
  | b :: t => b * 256 ^ t.length + bytesToNatBE t

/-- Python `str(uuid.UUID(bytes=...))`: the 32 lowercase hex digits of the 128-bit
value, hyphenated 8-4-4-4-12. -/
def pyUuidStr (bytes : List Nat) : Str :=
  let h := hexPad 32 (bytesToNatBE bytes)
  h.take 8 ++ '-' :: (h.drop 8).take 4 ++ '-' :: (h.drop 12).take 4 ++
    '-' :: (h.drop 16).take 4 ++ '-' :: h.drop 20

/-- The offline identifier as `_launch` computes it:
`str(uuid.UUID(bytes=bytes(digest)))` of the twiddled digest. -/
def offlineId (username : Str) : Str := pyUuidStr (offlineDigest username)

/-! ### The same derivation as the specification words it -/

/-- Spec wording: set the high nibble of byte 6 to `0x3`, keeping its low
nibble. -/
def specSetVersion3 (b : Nat) : Nat := 3 * 16 + b % 16

/-- Spec wording: set the top two bits of byte 8 to `10`, keeping the
remaining six bits. -/
def specSetVariant (b : Nat) : Nat := 2 * 64 + b % 64

/-- The two lowercase hex digits of one byte. -/
def byteHex (b : Nat) : Str := [hexDigit (b / 16), hexDigit (b % 16)]

/-- Spec wording of the rendering: the bytes in order as lowercase hex pairs,
hyphenated into groups of 4, 2, 2, 2 and 6 bytes. -/
def specRender (bytes : List Nat) : Str :=
  ((bytes.take 4).map byteHex).flatten ++ '-' :: (((bytes.drop 4).take 2).map byteHex).flatten ++
    '-' :: (((bytes.drop 6).take 2).map byteHex).flatten ++
    '-' :: (((bytes.drop 8).take 2).map byteHex).flatten ++
    '-' :: ((bytes.drop 10).map byteHex).flatten

/-- The offline identifier as the specification describes it: the 16-byte
digest of the UTF-8 bytes of `"OfflinePlayer:" + username`, byte 6's high
nibble set to `0x3` keeping its low nibble, byte 8's top two bits set to `10`
keeping the other six, rendered as hyphenated lowercase hex. -/
def specOfflineId (username : Str) : Str :=
  let d := md5 (utf8Encode ("OfflinePlayer:".data ++ username))
  let d1 := d.set 6 (specSetVersion3 (d.getD 6 0))
  specRender (d1.set 8 (specSetVariant (d1.getD 8 0)))

/-! ## Python string helpers used by `_launch` -/

/-- The ASCII whitespace stripped by Python `str.strip()` (Python also strips
non-ASCII Unicode whitespace; the claims only involve ASCII input). -/
def isPySpace (c : Char) : Bool :=
  c.toNat == 32 || c.toNat == 9 || c.toNat == 10 ||
    c.toNat == 11 || c.toNat == 12 || c.toNat == 13

/-- Python `str.strip()`: drop whitespace from both ends. -/
def pyStrip (s : Str) : Str :=
  ((s.dropWhile isPySpace).reverse.dropWhile isPySpace).reverse

/-- ASCII lowercasing, `str.lower()` on the ASCII range (version identifiers
are ASCII). -/
def lowerAscii (s : Str) : Str :=
  s.map fun c => if 65 ≤ c.toNat && c.toNat ≤ 90 then Char.ofNat (c.toNat + 32) else c

/-- Python `needle in haystack` on strings: contiguous-substring test. -/
def strContains (needle hay : Str) : Bool :=
  match hay with
  | [] => needle.isEmpty
  | _ :: t => needle.isPrefixOf hay || strContains needle t

/-- Decimal rendering of a natural number (Python `f"{n}"`), by fuel-free
structural recursion on the digit count. -/
def natDecAux : Nat → Nat → Str
  | 0, _ => []
  | fuel + 1, n => if n < 10 then [Char.ofNat (48 + n)]
      else natDecAux fuel (n / 10) ++ [Char.ofNat (48 + n % 10)]

/-- Decimal rendering of a natural number. -/
def natDec (n : Nat) : Str := natDecAux (n + 1) n

/-! ## Version resolution (`_launch`, lines 384–399) -/

/-- The three entries of the Game Type combobox. -/
inductive GameType
  | vanilla
  | forge
  | fabric
deriving DecidableEq

/-- Does an installed version id match a modloader, per the code:
`"forge" in v.get("id", "").lower()` (resp. `"fabric"`)? -/
def matchesLoader (needle : Str) (id : Str) : Bool :=
  strContains needle (lowerAscii id)

/-- Python truthiness of the selected `version_id`: `None` or `""` are falsy. -/
def isFalsyId : Option Str → Bool
  | none => true
  | some s => s.isEmpty

/-- The version selected before the falsy check: the latest release for
Vanilla, otherwise the first installed id containing the loader name. -/
def pickVersion (gameType : GameType) (installed : List Str) (latest : Str) : Option Str :=
  match gameType with
  | .vanilla => some latest
  | .forge => installed.find? (matchesLoader "forge".data)
  | .fabric => installed.find? (matchesLoader "fabric".data)

/-- Version resolution (lines 384–399): pick by edition, then
`if not version_id:` fall back to the latest release and reassign
`game_type = "Vanilla"`. Returns the resolved id and the effective edition. -/
def resolveVersion (gameType : GameType) (installed : List Str) (latest : Str) :
    Str × GameType :=
  let v0 := pickVersion gameType installed latest
  if isFalsyId v0 then (latest, .vanilla) else (v0.getD [], gameType)

/-! ## The configuration dictionary (`self.config`) -/

/-- A JSON-ish value stored in the config dictionary. -/
inductive JVal
  | s (v : Str)
  | n (v : Nat)
deriving DecidableEq

/-- The config dictionary, as an association list of string keys. -/
abbrev Config := List (Str × JVal)

/-- Python `dict[k] = v`: replace the first binding of `k`, else append. -/
def setKey (c : Config) (k : Str) (v : JVal) : Config :=
  match c with
  | [] => [(k, v)]
  | (k0, v0) :: t => if k0 = k then (k, v) :: t else (k0, v0) :: setKey t k v

/-- Python `dict.get(k)`: the first binding of `k`, if any. -/
def lookupKey (c : Config) (k : Str) : Option JVal :=
  match c with
  | [] => none
  | (k0, v0) :: t => if k0 = k then some v0 else lookupKey t k

/-- The three config updates `_launch` performs after validation
(lines 366–370): `offline_username` (offline mode only), `login_type`, `ram`. -/
def updatedConfig (loginType username : Str) (ramGb : Nat) (cfg : Config) : Config :=
  let c1 := if loginType = "offline".data then setKey cfg "offline_username".data (.s username) else cfg
  setKey (setKey c1 "login_type".data (.s loginType)) "ram".data (.n ramGb)

/-! ## The `_launch` sequencer (lines 342–440) -/

/-- One call into the external `minecraft_launcher_lib` collaborator. -/
inductive ExtCall
  | getDirectory
  | getInstalledVersions
  | getLatestVersion
  | installVersion (id : Str)
  | getCommand
deriving DecidableEq

instance {ε α : Type} [DecidableEq ε] [DecidableEq α] : DecidableEq (Except ε α) := fun x y =>
  match x, y with
  | .error a, .error b =>
    if h : a = b then isTrue (by rw [h]) else isFalse (by simp [h])
  | .error _, .ok _ => isFalse (by simp)
  | .ok _, .error _ => isFalse (by simp)
  | .ok a, .ok b =>
    if h : a = b then isTrue (by rw [h]) else isFalse (by simp [h])

/-- The behaviour of the external collaborator during one launch attempt:
whether the import succeeds, and the result (value or raised exception
message) of each call. -/
structure Env where
  importOk : Bool
  installed : Except Str (List Str)
  latest : Except Str Str
  installResult : Except Str Unit
  command : Except Str (List Str)
deriving DecidableEq

/-- The session dictionary built in `_launch` (lines 410–422). -/
structure Session where
  name : Str
  id : Str
  token : Str
deriving DecidableEq

/-- The options dictionary passed to `get_minecraft_command` (lines 426–431). -/
structure Options where
  username : Str
  uuid : Str
  token : Str
  jvmArguments : List Str
deriving DecidableEq

/-- The minimum-heap value of line 430: `max(1, ram_gb // 2)` (Python `//` on
nonnegative integers is floor division). -/
def minHeapGb (ramGb : Nat) : Nat := max 1 (ramGb / 2)

/-- The JVM heap arguments of line 430:
`[f"-Xmx{ram_gb}G", f"-Xms{max(1, ram_gb // 2)}G"]`. -/
def jvmArgs (ramGb : Nat) : List Str :=
  ["-Xmx".data ++ natDec ramGb ++ "G".data,
   "-Xms".data ++ natDec (minHeapGb ramGb) ++ "G".data]

/-- How one launch attempt ends. -/
inductive LaunchResult
  | invalidUsername
  | notAuthenticated
  | libMissing
  | versionError (msg : Str)
  | installError (msg : Str)
  | launchError (msg : Str)
  | launched (session : Session) (options : Options) (versionId : Str)
      (effectiveType : GameType)
deriving DecidableEq

/-- Everything observable about one launch attempt: the result, the in-memory
config, the config written to disk by `_save_config` (if any), and the calls
made into the external collaborator. -/
structure LaunchOutcome where
  result : LaunchResult
  config : Config
  fileWrite : Option Config
  calls : List ExtCall
deriving DecidableEq

/-- The tail of `_launch` after a version id has been resolved: install it
(lines 402–407), build the session (410–423) and options (426–431), ask for
the command and spawn it (432–440). -/
def launchTail (loginType username : Str) (ramGb : Nat)
    (ms : Option (Str × Str × Str)) (cfg3 : Config) (versionId : Str)
    (effType : GameType) (calls : List ExtCall) (env : Env) : LaunchOutcome :=
  let calls1 := calls ++ [ExtCall.installVersion versionId]
  match env.installResult with
  | .error e => ⟨.installError e, cfg3, some cfg3, calls1⟩
  | .ok _ =>
    let session : Session :=
      if loginType = "offline".data then ⟨username, offlineId username, []⟩
      else
        -- `self.ms_profile` / `self.ms_token`; present whenever the
        -- Microsoft branch is reachable (checked at lines 361–364).
        match ms with
        | some (n, i, t) => ⟨n, i, t⟩
        | none => ⟨[], [], []⟩
    let options : Options := ⟨session.name, session.id, session.token, jvmArgs ramGb⟩
    let calls2 := calls1 ++ [ExtCall.getCommand]
    match env.command with
    | .error e => ⟨.launchError e, cfg3, some cfg3, calls2⟩
    | .ok _ => ⟨.launched session options versionId effType, cfg3, some cfg3, calls2⟩

/-- The modloader arm of the version-selection block (lines 389–394): take the
first installed id containing the loader name; `if not version_id:` fall back
to the latest release and effective edition Vanilla. -/
def launchModloader (loginType username : Str) (gt : GameType) (needle : Str)
    (ramGb : Nat) (ms : Option (Str × Str × Str)) (cfg3 : Config)
    (installed : List Str) (calls0 : List ExtCall) (env : Env) : LaunchOutcome :=
  match installed.find? (matchesLoader needle) with
  | some id =>
    if id.isEmpty then
      match env.latest with
      | .error e => ⟨.versionError e, cfg3, some cfg3, calls0 ++ [ExtCall.getLatestVersion]⟩
      | .ok latest =>
        launchTail loginType username ramGb ms cfg3 latest .vanilla
          (calls0 ++ [ExtCall.getLatestVersion]) env
    else launchTail loginType username ramGb ms cfg3 id gt calls0 env
  | none =>
    match env.latest with
    | .error e => ⟨.versionError e, cfg3, some cfg3, calls0 ++ [ExtCall.getLatestVersion]⟩
    | .ok latest =>
      launchTail loginType username ramGb ms cfg3 latest .vanilla
        (calls0 ++ [ExtCall.getLatestVersion]) env

/-- The version-selection block of `_launch` (lines 381–399) followed by the
tail: enumerate installed versions, pick by edition (calling
`get_latest_version` where the code does), fall back on a falsy pick. -/
def launchResolve (loginType username : Str) (gameType : GameType) (ramGb : Nat)
    (ms : Option (Str × Str × Str)) (cfg3 : Config) (env : Env) : LaunchOutcome :=
  let calls0 := [ExtCall.getDirectory, ExtCall.getInstalledVersions]
  match env.installed with
  | .error e => ⟨.versionError e, cfg3, some cfg3, calls0⟩
  | .ok installed =>
    match gameType with
    | .vanilla =>
      match env.latest with
      | .error e => ⟨.versionError e, cfg3, some cfg3, calls0 ++ [ExtCall.getLatestVersion]⟩
      | .ok latest =>
        let calls1 := calls0 ++ [ExtCall.getLatestVersion]
        if latest.isEmpty then
          -- `if not version_id:` re-queries the latest release.
          match env.latest with
          | .error e => ⟨.versionError e, cfg3, some cfg3, calls1 ++ [ExtCall.getLatestVersion]⟩
          | .ok latest2 =>
            launchTail loginType username ramGb ms cfg3 latest2 .vanilla
              (calls1 ++ [ExtCall.getLatestVersion]) env
        else launchTail loginType username ramGb ms cfg3 latest .vanilla calls1 env
    | .forge =>
      launchModloader loginType username .forge "forge".data ramGb ms cfg3
        installed calls0 env
    | .fabric =>
      launchModloader loginType username .fabric "fabric".data ramGb ms cfg3
        installed calls0 env

/-- The sequencer `MelonLauncher._launch` (lines 342–440): strip the entered username,
validate, persist the config, then resolve/install/build/launch against the
external collaborator. -/
def launch (loginType usernameRaw : Str) (gameType : GameType) (ramGb : Nat)
    (ms : Option (Str × Str × Str)) (cfg : Config) (env : Env) : LaunchOutcome :=
  let username := pyStrip usernameRaw
  if loginType = "offline".data ∧ validate_username username = false then
    ⟨.invalidUsername, cfg, none, []⟩
  else if loginType = "microsoft".data ∧ ms = none then
    ⟨.notAuthenticated, cfg, none, []⟩
  else
    let cfg3 := updatedConfig loginType username ramGb cfg
    if env.importOk then
      launchResolve loginType username gameType ramGb ms cfg3 env
    else ⟨.libMissing, cfg3, some cfg3, []⟩

/-! ## Theorems -/

/-- The validator agrees with the specification's predicate (shared helper). -/
theorem validate_username_iff (s : Str) :
    validate_username s = true ↔ specValidUsername s := by
  unfold validate_username fullmatchNameClass specValidUsername
  simp only [Bool.and_eq_true, Bool.not_eq_true', List.isEmpty_eq_false,
    decide_eq_true_eq, List.all_eq_true]
  constructor
  · rintro ⟨⟨_, h3, h16⟩, _, hall⟩
    exact ⟨h3, h16, hall⟩
  · rintro ⟨h3, h16, hall⟩
    have hne : s ≠ [] := by
      intro he
      rw [he] at h3
      simp at h3
    exact ⟨⟨hne, h3, h16⟩, hne, hall⟩

/-- **C5.** The username validator accepts a candidate string if and only if
its length is between 3 and 16 inclusive and every character is an ASCII
letter, digit, or underscore; all other strings (empty, longer than 16
characters, or containing any space or symbol) are rejected. The validator is
embedded as a pure Boolean function of the string alone, so it has no side
effects by construction. -/
theorem C5_validator_accepts_iff (s : Str) :
    validate_username s = true ↔ specValidUsername s :=
  validate_username_iff s

/-- **C10.** For every integer memory request `ramGb ≥ 1`, the computed heap
bounds satisfy `1 ≤ max(1, ramGb // 2) ≤ ramGb`: the minimum-heap argument is
at least 1 GB and never exceeds the maximum heap. -/
theorem C10_heap_bounds (ramGb : Nat) (h : 1 ≤ ramGb) :
    1 ≤ minHeapGb ramGb ∧ minHeapGb ramGb ≤ ramGb := by
  unfold minHeapGb
  constructor
  · exact le_max_left 1 (ramGb / 2)
  · exact max_le h (Nat.div_le_self ramGb 2)

/-- Concrete instance of `C10_heap_bounds` at `ramGb = 4`. -/
theorem C10_heap_bounds_witness :
    1 ≤ 4 ∧ (1 ≤ minHeapGb 4 ∧ minHeapGb 4 ≤ 4) :=
  ⟨by decide, C10_heap_bounds 4 (by decide)⟩

/-- **C7.** Identifier derivation is deterministic — it is a pure function, so
deriving twice from the same username yields identical output — and the
identifier derived from `"Steve"` is the fixed UUID
`5627dd98-e6be-3c21-b8a8-e92344183641`, whose byte 6 has high nibble `3` and
whose byte 8 has top two bits `10`. -/
theorem C7_identifier_deterministic_and_steve_fixed :
    (∀ u : Str, offlineId u = offlineId u) ∧
    offlineId "Steve".data = "5627dd98-e6be-3c21-b8a8-e92344183641".data ∧
    (offlineDigest "Steve".data).getD 6 0 / 16 = 3 ∧
    (offlineDigest "Steve".data).getD 8 0 / 64 = 2 :=
  ⟨fun _ => rfl, by decide, by decide, by decide⟩

/-- The loader-name needle searched for by the modloader branches of `_launch`
(lines 389 and 391). -/
def loaderNeedle : GameType → Option Str
  | .vanilla => none
  | .forge => some "forge".data
  | .fabric => some "fabric".data

/-- A `find?` over a list split as `pre ++ v :: post` where nothing in `pre`
matches and `v` does returns `v`: "the first matching element". -/
theorem find?_append_first {α : Type} (p : α → Bool) (pre post : List α) (v : α)
    (hpre : ∀ u ∈ pre, p u = false) (hv : p v = true) :
    (pre ++ v :: post).find? p = some v := by
  induction pre with
  | nil => simp [List.find?_cons, hv]
  | cons a t ih =>
    have ha : p a = false := hpre a (List.mem_cons_self a t)
    simp only [List.cons_append, List.find?_cons, ha, cond_false]
    exact ih fun u hu => hpre u (List.mem_cons_of_mem a hu)

/-- **C2.** Version resolution: requesting Vanilla yields the latest known
stable release regardless of the installed list; requesting a modloader
edition yields the first installed version whose identifier contains the
loader's name (case-insensitively, via lowercasing); and when no installed
version matches, resolution falls back to the latest release and records the
effective edition as Vanilla. -/
theorem C2_version_resolution :
    (∀ (installed : List Str) (latest : Str),
        resolveVersion .vanilla installed latest = (latest, .vanilla)) ∧
    (∀ (gt : GameType) (needle : Str) (pre post : List Str) (v latest : Str),
        loaderNeedle gt = some needle →
        (∀ u ∈ pre, matchesLoader needle u = false) →
        matchesLoader needle v = true →
        resolveVersion gt (pre ++ v :: post) latest = (v, gt)) ∧
    (∀ (gt : GameType) (needle : Str) (installed : List Str) (latest : Str),
        loaderNeedle gt = some needle →
        (∀ u ∈ installed, matchesLoader needle u = false) →
        resolveVersion gt installed latest = (latest, .vanilla)) := by
  refine ⟨?_, ?_, ?_⟩
  · intro installed latest
    unfold resolveVersion pickVersion isFalsyId
    by_cases h : latest.isEmpty
    · rw [List.isEmpty_iff.mp h]
      simp
    · simp [h]
  · intro gt needle pre post v latest hgt hpre hv
    cases gt with
    | vanilla => simp [loaderNeedle] at hgt
    | forge =>
      simp only [loaderNeedle, Option.some.injEq] at hgt
      subst hgt
      have hfind := find?_append_first (matchesLoader "forge".data) pre post v hpre hv
      have hvne : v.isEmpty = false := by
        cases v with
        | nil => exact absurd hv (by decide)
        | cons a t => rfl
      unfold resolveVersion pickVersion isFalsyId
      simp [hfind, hvne]
    | fabric =>
      simp only [loaderNeedle, Option.some.injEq] at hgt
      subst hgt
      have hfind := find?_append_first (matchesLoader "fabric".data) pre post v hpre hv
      have hvne : v.isEmpty = false := by
        cases v with
        | nil => exact absurd hv (by decide)
        | cons a t => rfl
      unfold resolveVersion pickVersion isFalsyId
      simp [hfind, hvne]
  · intro gt needle installed latest hgt hall
    have hfind : installed.find? (matchesLoader needle) = none :=
      List.find?_eq_none.mpr fun u hu => by
        rw [hall u hu]
        exact Bool.false_ne_true
    cases gt with
    | vanilla => simp [loaderNeedle] at hgt
    | forge =>
      simp only [loaderNeedle, Option.some.injEq] at hgt
      subst hgt
      unfold resolveVersion pickVersion isFalsyId
      simp [hfind]
    | fabric =>
      simp only [loaderNeedle, Option.some.injEq] at hgt
      subst hgt
      unfold resolveVersion pickVersion isFalsyId
      simp [hfind]

/-- Concrete instances of all three branches of `C2_version_resolution`. -/
theorem C2_version_resolution_witness :
    resolveVersion .vanilla ["x".data] "1.21.6".data = ("1.21.6".data, .vanilla) ∧
    resolveVersion .forge ["x".data, "1.20.1-Forge-47".data, "y-forge".data]
      "1.21.6".data = ("1.20.1-Forge-47".data, .forge) ∧
    resolveVersion .fabric ["x".data, "1.20.1-Forge-47".data] "1.21.6".data =
      ("1.21.6".data, .vanilla) :=
  ⟨C2_version_resolution.1 ["x".data] "1.21.6".data,
   C2_version_resolution.2.1 .forge "forge".data ["x".data] ["y-forge".data]
     "1.20.1-Forge-47".data "1.21.6".data rfl (by decide) (by decide),
   C2_version_resolution.2.2 .fabric "fabric".data
     ["x".data, "1.20.1-Forge-47".data] "1.21.6".data rfl (by decide)⟩

/-- A sample all-succeeding collaborator environment, for concrete runs. -/
def envAllOk : Env :=
  ⟨true, .ok ["1.20.1-forge-47.2.0".data], .ok "1.21.6".data, .ok (), .ok ["java".data]⟩

/-- **C6.** The sequencer short-circuits on validation failure: an offline
launch attempt whose (stripped) username is invalid ends in
`Failed(InvalidUsername)` with no call into the external collaborator — in
particular no version enumeration, latest-version lookup, install, or command
construction — and no config write. -/
theorem C6_invalid_username_short_circuits (u : Str) (gt : GameType) (ramGb : Nat)
    (ms : Option (Str × Str × Str)) (cfg : Config) (env : Env)
    (h : validate_username (pyStrip u) = false) :
    launch "offline".data u gt ramGb ms cfg env =
      ⟨.invalidUsername, cfg, none, []⟩ := by
  unfold launch
  simp [h]

/-- Concrete instance of `C6_invalid_username_short_circuits`: a username with
a space is rejected before any external call. -/
theorem C6_invalid_username_short_circuits_witness :
    validate_username (pyStrip "a b".data) = false ∧
    launch "offline".data "a b".data .forge 4 none [] envAllOk =
      ⟨.invalidUsername, [], none, []⟩ :=
  ⟨by decide,
   C6_invalid_username_short_circuits "a b".data .forge 4 none [] envAllOk (by decide)⟩

/-! ### Rendering lemmas for C1 -/

/-- Splitting a fixed-width hex rendering at a digit boundary. -/
theorem hexPad_split (k : Nat) : ∀ (j x y : Nat), y < 16 ^ k →
    hexPad (j + k) (x * 16 ^ k + y) = hexPad j x ++ hexPad k y := by
  induction k with
  | zero =>
    intro j x y hy
    have hy0 : y = 0 := by simpa using hy
    subst hy0
    simp [hexPad]
  | succ k ih =>
    intro j x y hy
    have hdiv : (x * 16 ^ (k + 1) + y) / 16 = x * 16 ^ k + y / 16 := by
      have hrw : x * 16 ^ (k + 1) + y = 16 * (x * 16 ^ k) + y := by ring
      rw [hrw, Nat.mul_add_div (by norm_num)]
    have hmod : (x * 16 ^ (k + 1) + y) % 16 = y % 16 := by
      have hrw : x * 16 ^ (k + 1) + y = 16 * (x * 16 ^ k) + y := by ring
      rw [hrw, Nat.mul_add_mod]
    have hylt : y / 16 < 16 ^ k := by
      rw [Nat.div_lt_iff_lt_mul (by norm_num)]
      calc y < 16 ^ (k + 1) := hy
        _ = 16 ^ k * 16 := by ring
    show hexPad ((j + k) + 1) (x * 16 ^ (k + 1) + y) = _
    rw [hexPad, hdiv, hmod, ih j x (y / 16) hylt]
    show _ = hexPad j x ++ hexPad (k + 1) y
    rw [hexPad]
    simp [List.append_assoc]

/-- Byte strings are bounded by `256 ^ length`. -/
theorem bytesToNatBE_lt (l : List Nat) (h : ∀ b ∈ l, b < 256) :
    bytesToNatBE l < 256 ^ l.length := by
  induction l with
  | nil => simp [bytesToNatBE]
  | cons b t ih =>
    have hb : b < 256 := h b (List.mem_cons_self b t)
    have ht : bytesToNatBE t < 256 ^ t.length :=
      ih fun x hx => h x (List.mem_cons_of_mem b hx)
    show b * 256 ^ t.length + bytesToNatBE t < 256 ^ (t.length + 1)
    have : 256 ^ (t.length + 1) = 256 * 256 ^ t.length := by ring
    rw [this]
    calc b * 256 ^ t.length + bytesToNatBE t
        < b * 256 ^ t.length + 256 ^ t.length := by omega
      _ = (b + 1) * 256 ^ t.length := by ring
      _ ≤ 256 * 256 ^ t.length := by
          have : b + 1 ≤ 256 := hb
          exact Nat.mul_le_mul_right _ this

/-- A two-digit hex rendering of a byte is its byte-hex pair. -/
theorem hexPad_two (b : Nat) (hb : b < 256) : hexPad 2 b = byteHex b := by
  have h16 : b / 16 < 16 := by omega
  show hexPad 1 (b / 16) ++ [hexDigit (b % 16)] = byteHex b
  show (hexPad 0 (b / 16 / 16) ++ [hexDigit (b / 16 % 16)]) ++ [hexDigit (b % 16)] = _
  rw [Nat.mod_eq_of_lt h16]
  rfl

/-- The 2·n-digit hex rendering of a byte string is the concatenation of its
bytes' hex pairs. -/
theorem hexPad_bytes (l : List Nat) (h : ∀ b ∈ l, b < 256) :
    hexPad (2 * l.length) (bytesToNatBE l) = (l.map byteHex).flatten := by
  induction l with
  | nil => rfl
  | cons b t ih =>
    have hb : b < 256 := h b (List.mem_cons_self b t)
    have ht : ∀ x ∈ t, x < 256 := fun x hx => h x (List.mem_cons_of_mem b hx)
    have hlen : 2 * (b :: t).length = 2 + 2 * t.length := by
      simp [List.length_cons]
      ring
    rw [hlen]
    have hval : bytesToNatBE (b :: t) = b * 16 ^ (2 * t.length) + bytesToNatBE t := by
      show b * 256 ^ t.length + bytesToNatBE t = _
      rw [show (16 : Nat) ^ (2 * t.length) = 256 ^ t.length by
        rw [pow_mul]
        norm_num]
    rw [hval, hexPad_split (2 * t.length) 2 b (bytesToNatBE t)
      (by
        rw [show (16 : Nat) ^ (2 * t.length) = 256 ^ t.length by
          rw [pow_mul]
          norm_num]
        exact bytesToNatBE_lt t ht),
      hexPad_two b hb, ih ht]
    rfl

/-- Taking `2k` characters of the flattened hex pairs is the flattened hex
pairs of the first `k` bytes. -/
theorem take_flatten_byteHex (l : List Nat) : ∀ k : Nat,
    ((l.map byteHex).flatten).take (2 * k) = ((l.take k).map byteHex).flatten := by
  induction l with
  | nil => intro k; simp
  | cons b t ih =>
    intro k
    cases k with
    | zero => simp
    | succ k =>
      have h2 : 2 * (k + 1) = 2 * k + 1 + 1 := by ring
      simp only [List.map_cons, List.flatten_cons, List.take_succ_cons, byteHex, h2,
        List.cons_append, List.nil_append, List.take_succ_cons]
      rw [ih k]

/-- Dropping `2k` characters of the flattened hex pairs is the flattened hex
pairs of the bytes after the first `k`. -/
theorem drop_flatten_byteHex (l : List Nat) : ∀ k : Nat,
    ((l.map byteHex).flatten).drop (2 * k) = ((l.drop k).map byteHex).flatten := by
  induction l with
  | nil => intro k; simp
  | cons b t ih =>
    intro k
    cases k with
    | zero => simp
    | succ k =>
      have h2 : 2 * (k + 1) = 2 * k + 1 + 1 := by ring
      simp only [List.map_cons, List.flatten_cons, List.drop_succ_cons, byteHex, h2,
        List.cons_append, List.nil_append, List.drop_succ_cons]
      rw [ih k]

/-- On 16-byte strings, the Python UUID rendering coincides with the
specification's grouped byte-hex rendering. -/
theorem pyUuidStr_eq_specRender (l : List Nat) (hlen : l.length = 16)
    (hb : ∀ b ∈ l, b < 256) : pyUuidStr l = specRender l := by
  have hhex : hexPad 32 (bytesToNatBE l) = (l.map byteHex).flatten := by
    have h := hexPad_bytes l hb
    rw [hlen] at h
    exact h
  have t8 : ((l.map byteHex).flatten).take 8 = ((l.take 4).map byteHex).flatten :=
    take_flatten_byteHex l 4
  have d8 : ((l.map byteHex).flatten).drop 8 = ((l.drop 4).map byteHex).flatten :=
    drop_flatten_byteHex l 4
  have d12 : ((l.map byteHex).flatten).drop 12 = ((l.drop 6).map byteHex).flatten :=
    drop_flatten_byteHex l 6
  have d16 : ((l.map byteHex).flatten).drop 16 = ((l.drop 8).map byteHex).flatten :=
    drop_flatten_byteHex l 8
  have d20 : ((l.map byteHex).flatten).drop 20 = ((l.drop 10).map byteHex).flatten :=
    drop_flatten_byteHex l 10
  have t4a : (((l.drop 4).map byteHex).flatten).take 4 =
      (((l.drop 4).take 2).map byteHex).flatten :=
    take_flatten_byteHex (l.drop 4) 2
  have t4b : (((l.drop 6).map byteHex).flatten).take 4 =
      (((l.drop 6).take 2).map byteHex).flatten :=
    take_flatten_byteHex (l.drop 6) 2
  have t4c : (((l.drop 8).map byteHex).flatten).take 4 =
      (((l.drop 8).take 2).map byteHex).flatten :=
    take_flatten_byteHex (l.drop 8) 2
  simp only [pyUuidStr, specRender]
  rw [hhex, t8, d8, t4a, d12, t4b, d16, t4c, d20]

/-- For a byte, masking with `0x0F` and or-ing `0x30` is exactly "set the high
nibble to `0x3`, keep the low nibble". -/
theorem mask_version_eq (b : Nat) (hb : b < 256) :
    (b &&& 15) ||| 48 = specSetVersion3 b := by
  have h : ∀ x : Fin 256, (x.val &&& 15) ||| 48 = specSetVersion3 x.val := by decide
  exact h ⟨b, hb⟩

/-- For a byte, masking with `0x3F` and or-ing `0x80` is exactly "set the top
two bits to `10`, keep the remaining six". -/
theorem mask_variant_eq (b : Nat) (hb : b < 256) :
    (b &&& 63) ||| 128 = specSetVariant b := by
  have h : ∀ x : Fin 256, (x.val &&& 63) ||| 128 = specSetVariant x.val := by decide
  exact h ⟨b, hb⟩

/-- MD5 digests have 16 bytes. -/
theorem md5_length (msg : List Nat) : (md5 msg).length = 16 := by
  simp [md5, toLE4]

/-- Every MD5 output byte is below 256. -/
theorem md5_bytes_lt (msg : List Nat) : ∀ b ∈ md5 msg, b < 256 := by
  intro b hb
  simp only [md5, toLE4, List.append_assoc, List.mem_append, List.mem_cons,
    List.not_mem_nil, or_false] at hb
  rcases hb with (h | h | h | h) | (h | h | h | h) | (h | h | h | h) | h | h | h | h <;>
    subst h <;> exact Nat.mod_lt _ (by norm_num)

/-- A `getD _ 0` over a byte-bounded list is byte-bounded. -/
theorem getD_lt_256 (l : List Nat) (i : Nat) (h : ∀ b ∈ l, b < 256) :
    l.getD i 0 < 256 := by
  by_cases hi : i < l.length
  · rw [List.getD_eq_getElem l 0 hi]
    exact h _ (List.getElem_mem hi)
  · rw [List.getD_eq_default l 0 (by omega)]
    norm_num

/-- Byte-boundedness survives a `set` with a byte-bounded value. -/
theorem set_bytes_lt (l : List Nat) (i v : Nat) (h : ∀ b ∈ l, b < 256)
    (hv : v < 256) : ∀ b ∈ l.set i v, b < 256 := by
  intro b hb
  rcases List.mem_or_eq_of_mem_set hb with hb1 | rfl
  · exact h b hb1
  · exact hv

/-- **C1.** For every username accepted by the validator, the derived offline
identifier is exactly the specification's: the 16-byte digest of the UTF-8
bytes of `"OfflinePlayer:" + username`, with byte 6's high nibble set to `0x3`
(low nibble kept) and byte 8's top two bits set to `10` (other six bits kept),
rendered as a hyphenated lowercase-hex UUID string. -/
theorem C1_offline_identifier_matches_spec (u : Str)
    (h : validate_username u = true) : offlineId u = specOfflineId u := by
  unfold offlineId offlineDigest specOfflineId
  dsimp only
  set d := md5 (utf8Encode ("OfflinePlayer:".data ++ u)) with hd
  have hlen : d.length = 16 := md5_length _
  have hlt : ∀ b ∈ d, b < 256 := md5_bytes_lt _
  have h6 : (d.getD 6 0 &&& 15) ||| 48 = specSetVersion3 (d.getD 6 0) :=
    mask_version_eq _ (getD_lt_256 d 6 hlt)
  have hlt1 : ∀ b ∈ d.set 6 (specSetVersion3 (d.getD 6 0)), b < 256 :=
    set_bytes_lt d 6 _ hlt (by
      unfold specSetVersion3
      omega)
  have h8 : ((d.set 6 (specSetVersion3 (d.getD 6 0))).getD 8 0 &&& 63) ||| 128 =
      specSetVariant ((d.set 6 (specSetVersion3 (d.getD 6 0))).getD 8 0) :=
    mask_variant_eq _ (getD_lt_256 _ 8 hlt1)
  rw [h6, h8]
  apply pyUuidStr_eq_specRender
  · simp [hlen]
  · exact set_bytes_lt _ 8 _ hlt1 (by
      unfold specSetVariant
      omega)

/-- Concrete instance of `C1_offline_identifier_matches_spec` at `"Steve"`. -/
theorem C1_offline_identifier_matches_spec_witness :
    validate_username "Steve".data = true ∧
    offlineId "Steve".data = specOfflineId "Steve".data :=
  ⟨by decide, C1_offline_identifier_matches_spec "Steve".data (by decide)⟩

/-! ### Shape lemmas for the `_launch` sequencer -/

/-- Past the config write, the tail of `_launch` always carries the updated
config, has written it to disk, and never reports a validation failure. -/
theorem launchTail_shape (lt u : Str) (ram : Nat) (ms : Option (Str × Str × Str))
    (cfg3 : Config) (vid : Str) (et : GameType) (calls : List ExtCall) (env : Env) :
    (launchTail lt u ram ms cfg3 vid et calls env).config = cfg3 ∧
    (launchTail lt u ram ms cfg3 vid et calls env).fileWrite = some cfg3 ∧
    (launchTail lt u ram ms cfg3 vid et calls env).result ≠ .invalidUsername ∧
    (launchTail lt u ram ms cfg3 vid et calls env).result ≠ .notAuthenticated := by
  obtain ⟨imp, inst, lat, insr, cmd⟩ := env
  unfold launchTail
  cases insr with
  | error e => simp
  | ok x =>
    cases cmd with
    | error e => simp
    | ok c => simp

/-- The modloader arm of the version-selection block likewise. -/
theorem launchModloader_shape (lt u : Str) (gt : GameType) (needle : Str)
    (ram : Nat) (ms : Option (Str × Str × Str)) (cfg3 : Config)
    (installed : List Str) (calls0 : List ExtCall) (env : Env) :
    (launchModloader lt u gt needle ram ms cfg3 installed calls0 env).config = cfg3 ∧
    (launchModloader lt u gt needle ram ms cfg3 installed calls0 env).fileWrite =
      some cfg3 ∧
    (launchModloader lt u gt needle ram ms cfg3 installed calls0 env).result ≠
      .invalidUsername ∧
    (launchModloader lt u gt needle ram ms cfg3 installed calls0 env).result ≠
      .notAuthenticated := by
  obtain ⟨imp, inst, lat, insr, cmd⟩ := env
  unfold launchModloader
  cases h4 : installed.find? (matchesLoader needle) with
  | none =>
    cases lat with
    | error e => simp [h4]
    | ok latest => simp [h4, launchTail_shape]
  | some id =>
    by_cases h5 : id.isEmpty
    · cases lat with
      | error e => simp [h4, h5]
      | ok latest => simp [h4, h5, launchTail_shape]
    · simp [h4, h5, launchTail_shape]

/-- The resolve-and-onward part of `_launch` likewise. -/
theorem launchResolve_shape (lt u : Str) (gt : GameType) (ram : Nat)
    (ms : Option (Str × Str × Str)) (cfg3 : Config) (env : Env) :
    (launchResolve lt u gt ram ms cfg3 env).config = cfg3 ∧
    (launchResolve lt u gt ram ms cfg3 env).fileWrite = some cfg3 ∧
    (launchResolve lt u gt ram ms cfg3 env).result ≠ .invalidUsername ∧
    (launchResolve lt u gt ram ms cfg3 env).result ≠ .notAuthenticated := by
  obtain ⟨imp, inst, lat, insr, cmd⟩ := env
  unfold launchResolve
  cases inst with
  | error e => simp
  | ok installed =>
    cases gt with
    | vanilla =>
      cases lat with
      | error e => simp
      | ok latest =>
        by_cases h3 : latest.isEmpty
        · simp [h3, launchTail_shape]
        · simp [h3, launchTail_shape]
    | forge => exact launchModloader_shape lt u .forge "forge".data ram ms cfg3 installed _ _
    | fabric => exact launchModloader_shape lt u .fabric "fabric".data ram ms cfg3 installed _ _

/-- Every `_launch` attempt either fails validation, leaving the config alone
and writing nothing, or carries the three-key update and writes exactly it. -/
theorem launch_shape (lt u : Str) (gt : GameType) (ram : Nat)
    (ms : Option (Str × Str × Str)) (cfg : Config) (env : Env) :
    (launch lt u gt ram ms cfg env = ⟨.invalidUsername, cfg, none, []⟩ ∨
     launch lt u gt ram ms cfg env = ⟨.notAuthenticated, cfg, none, []⟩) ∨
    ((launch lt u gt ram ms cfg env).config = updatedConfig lt (pyStrip u) ram cfg ∧
     (launch lt u gt ram ms cfg env).fileWrite =
       some (updatedConfig lt (pyStrip u) ram cfg) ∧
     (launch lt u gt ram ms cfg env).result ≠ .invalidUsername ∧
     (launch lt u gt ram ms cfg env).result ≠ .notAuthenticated) := by
  unfold launch
  dsimp only
  split
  · exact Or.inl (Or.inl rfl)
  · split
    · exact Or.inl (Or.inr rfl)
    · right
      by_cases himp : env.importOk = true
      · simp only [himp, if_true]
        exact launchResolve_shape lt (pyStrip u) gt ram ms _ env
      · simp only [himp, if_false]
        simp

/-- **C3 (counterexample).** A launch attempt that ends in
`Failed(VersionResolutionError)` has nevertheless overwritten the persisted
preferences file — with contents differing from the loaded ones — because
`_launch` saves the config right after validation, before version resolution.
This falsifies the claim that failed attempts leave the file unchanged. -/
theorem C3_failed_attempt_writes_config :
    (launch "offline".data "Steve".data .vanilla 4 none [("ram".data, JVal.n 2)]
        ⟨true, .error "boom".data, .ok "1.21.6".data, .ok (), .ok []⟩).result =
      .versionError "boom".data ∧
    (launch "offline".data "Steve".data .vanilla 4 none [("ram".data, JVal.n 2)]
        ⟨true, .error "boom".data, .ok "1.21.6".data, .ok (), .ok []⟩).fileWrite ≠
      none ∧
    (launch "offline".data "Steve".data .vanilla 4 none [("ram".data, JVal.n 2)]
        ⟨true, .error "boom".data, .ok "1.21.6".data, .ok (), .ok []⟩).fileWrite ≠
      some [("ram".data, JVal.n 2)] := by
  decide

/-- **C3 (amended).** The preferences file is left unchanged exactly by the
attempts that fail validation (invalid username or not authenticated); every
attempt that passes validation writes the config immediately after
validation, so attempts failing later — version-resolution, install, or
launch errors — still overwrite the file. -/
theorem C3_config_written_iff_validated (lt u : Str) (gt : GameType) (ram : Nat)
    (ms : Option (Str × Str × Str)) (cfg : Config) (env : Env) :
    (launch lt u gt ram ms cfg env).fileWrite = none ↔
      (launch lt u gt ram ms cfg env).result = .invalidUsername ∨
      (launch lt u gt ram ms cfg env).result = .notAuthenticated := by
  rcases launch_shape lt u gt ram ms cfg env with (h | h) | ⟨_, hw, hr1, hr2⟩
  · rw [h]
    simp
  · rw [h]
    simp
  · rw [hw]
    simp [hr1, hr2]

/-- A successfully launching tail always passes the heap arguments of
line 430 in its options. -/
theorem launchTail_launched_jvm (lt u : Str) (ram : Nat)
    (ms : Option (Str × Str × Str)) (cfg3 : Config) (vid : Str) (et : GameType)
    (calls : List ExtCall) (env : Env) (s : Session) (o : Options) (v : Str)
    (t : GameType)
    (h : (launchTail lt u ram ms cfg3 vid et calls env).result = .launched s o v t) :
    o.jvmArguments = jvmArgs ram := by
  obtain ⟨imp, inst, lat, insr, cmd⟩ := env
  unfold launchTail at h
  cases insr with
  | error e => simp at h
  | ok x =>
    cases cmd with
    | error e => simp at h
    | ok c =>
      simp only [LaunchResult.launched.injEq] at h
      obtain ⟨hs, ho, hv, ht⟩ := h
      rw [← ho]

/-- A successfully launching modloader arm likewise. -/
theorem launchModloader_launched_jvm (lt u : Str) (gt : GameType) (needle : Str)
    (ram : Nat) (ms : Option (Str × Str × Str)) (cfg3 : Config)
    (installed : List Str) (calls0 : List ExtCall) (env : Env) (s : Session)
    (o : Options) (v : Str) (t : GameType)
    (h : (launchModloader lt u gt needle ram ms cfg3 installed calls0 env).result =
      .launched s o v t) :
    o.jvmArguments = jvmArgs ram := by
  obtain ⟨imp, inst, lat, insr, cmd⟩ := env
  unfold launchModloader at h
  cases h4 : installed.find? (matchesLoader needle) with
  | none =>
    rw [h4] at h
    dsimp only at h
    cases lat with
    | error e => simp at h
    | ok latest => exact launchTail_launched_jvm _ _ _ _ _ _ _ _ _ _ _ _ _ h
  | some id =>
    rw [h4] at h
    dsimp only at h
    by_cases h5 : id.isEmpty
    · simp only [h5, if_true] at h
      cases lat with
      | error e => simp at h
      | ok latest => exact launchTail_launched_jvm _ _ _ _ _ _ _ _ _ _ _ _ _ h
    · simp only [h5, if_false] at h
      exact launchTail_launched_jvm _ _ _ _ _ _ _ _ _ _ _ _ _ h

/-- The resolve-and-onward part likewise. -/
theorem launchResolve_launched_jvm (lt u : Str) (gt : GameType) (ram : Nat)
    (ms : Option (Str × Str × Str)) (cfg3 : Config) (env : Env) (s : Session)
    (o : Options) (v : Str) (t : GameType)
    (h : (launchResolve lt u gt ram ms cfg3 env).result = .launched s o v t) :
    o.jvmArguments = jvmArgs ram := by
  obtain ⟨imp, inst, lat, insr, cmd⟩ := env
  unfold launchResolve at h
  dsimp only at h
  cases inst with
  | error e => simp at h
  | ok installed =>
    dsimp only at h
    cases gt with
    | vanilla =>
      cases lat with
      | error e => simp at h
      | ok latest =>
        dsimp only at h
        by_cases h3 : latest.isEmpty
        · simp only [h3, if_true] at h
          exact launchTail_launched_jvm _ _ _ _ _ _ _ _ _ _ _ _ _ h
        · simp only [h3, if_false] at h
          exact launchTail_launched_jvm _ _ _ _ _ _ _ _ _ _ _ _ _ h
    | forge => exact launchModloader_launched_jvm _ _ _ _ _ _ _ _ _ _ _ _ _ _ h
    | fabric => exact launchModloader_launched_jvm _ _ _ _ _ _ _ _ _ _ _ _ _ _ h

/-- The session built for a `"Steve"` offline launch. -/
def steveSession : Session :=
  ⟨"Steve".data, "5627dd98-e6be-3c21-b8a8-e92344183641".data, []⟩

/-- The options built for a `"Steve"` offline launch with 4 GB requested. -/
def steveOptions : Options :=
  ⟨"Steve".data, "5627dd98-e6be-3c21-b8a8-e92344183641".data, [],
   ["-Xmx4G".data, "-Xms2G".data]⟩

/-- **C4.** Every successful launch carries JVM heap arguments with maximum
heap equal to the requested gigabytes and minimum heap equal to half of it
rounded down, floored at 1; and the offline request
`{username "Steve", edition default, 4 GB}` produces the session
`{name "Steve", identifier 5627dd98-e6be-3c21-b8a8-e92344183641, token ""}`
and options with max-heap `4G` and min-heap `2G`. -/
theorem C4_heap_arguments_and_steve_run :
    (∀ (lt u : Str) (gt : GameType) (ram : Nat) (ms : Option (Str × Str × Str))
        (cfg : Config) (env : Env) (s : Session) (o : Options) (v : Str)
        (t : GameType),
        (launch lt u gt ram ms cfg env).result = .launched s o v t →
        o.jvmArguments =
          ["-Xmx".data ++ natDec ram ++ "G".data,
           "-Xms".data ++ natDec (max 1 (ram / 2)) ++ "G".data]) ∧
    launch "offline".data "Steve".data .vanilla 4 none [] envAllOk =
      ⟨.launched steveSession steveOptions "1.21.6".data .vanilla,
       [("offline_username".data, .s "Steve".data),
        ("login_type".data, .s "offline".data), ("ram".data, .n 4)],
       some [("offline_username".data, .s "Steve".data),
        ("login_type".data, .s "offline".data), ("ram".data, .n 4)],
       [.getDirectory, .getInstalledVersions, .getLatestVersion,
        .installVersion "1.21.6".data, .getCommand]⟩ := by
  constructor
  · intro lt u gt ram ms cfg env s o v t h
    unfold launch at h
    dsimp only at h
    split at h
    · simp at h
    · split at h
      · simp at h
      · by_cases himp : env.importOk = true
        · simp only [himp, if_true] at h
          have hj := launchResolve_launched_jvm _ _ _ _ _ _ _ _ _ _ _ h
          rw [hj]
          simp [jvmArgs, minHeapGb]
        · simp only [himp, if_false] at h
          simp at h
  · decide

/-- Concrete instance of the universally quantified half of
`C4_heap_arguments_and_steve_run`, at the `"Steve"` run. -/
theorem C4_heap_arguments_and_steve_run_witness :
    (launch "offline".data "Steve".data .vanilla 4 none [] envAllOk).result =
      .launched steveSession steveOptions "1.21.6".data .vanilla ∧
    steveOptions.jvmArguments =
      ["-Xmx".data ++ natDec 4 ++ "G".data,
       "-Xms".data ++ natDec (max 1 (4 / 2)) ++ "G".data] :=
  ⟨by decide,
   C4_heap_arguments_and_steve_run.1 "offline".data "Steve".data .vanilla 4 none
     [] envAllOk steveSession steveOptions "1.21.6".data .vanilla (by decide)⟩

/-! ### Lemmas about stripping and the config dictionary, for C8 and C9 -/

/-- Name-class characters are not Python whitespace. -/
theorem isNameChar_not_space (c : Char) (h : isNameChar c = true) :
    isPySpace c = false := by
  rw [Bool.eq_false_iff]
  intro hsp
  unfold isNameChar at h
  unfold isPySpace at hsp
  simp only [Bool.or_eq_true, Bool.and_eq_true, decide_eq_true_eq, Nat.beq_eq_true_eq] at h hsp
  omega

/-- Whitespace characters are not name-class characters. -/
theorem isPySpace_not_nameChar (c : Char) (h : isPySpace c = true) :
    isNameChar c = false := by
  rw [Bool.eq_false_iff]
  intro hn
  unfold isNameChar at hn
  unfold isPySpace at h
  simp only [Bool.or_eq_true, Bool.and_eq_true, decide_eq_true_eq, Nat.beq_eq_true_eq] at h hn
  omega

/-- Dropping over an all-matching left part continues into the right part. -/
theorem dropWhile_append_all (p : Char → Bool) (l1 l2 : Str)
    (h : ∀ c ∈ l1, p c = true) : (l1 ++ l2).dropWhile p = l2.dropWhile p := by
  induction l1 with
  | nil => rfl
  | cons a t ih =>
    have ha := h a (List.mem_cons_self a t)
    rw [List.cons_append, List.dropWhile_cons]
    simp only [ha, if_true]
    exact ih fun c hc => h c (List.mem_cons_of_mem a hc)

/-- A head that fails the predicate stops `dropWhile`. -/
theorem dropWhile_head_false (p : Char → Bool) (a : Char) (l : Str)
    (h : p a = false) : (a :: l).dropWhile p = a :: l := by
  rw [List.dropWhile_cons]
  simp [h]

/-- Python `str.strip()` removes surrounding whitespace and nothing else when
the core has no leading or trailing whitespace. -/
theorem pyStrip_pad (ws1 w ws2 : Str)
    (h1 : ∀ c ∈ ws1, isPySpace c = true) (h2 : ∀ c ∈ ws2, isPySpace c = true)
    (hw : ∀ c ∈ w, isPySpace c = false) (hne : w ≠ []) :
    pyStrip (ws1 ++ w ++ ws2) = w := by
  unfold pyStrip
  rw [List.append_assoc, dropWhile_append_all isPySpace ws1 (w ++ ws2) h1]
  cases w with
  | nil => exact absurd rfl hne
  | cons a t =>
    rw [List.cons_append,
      dropWhile_head_false isPySpace a (t ++ ws2) (hw a (List.mem_cons_self a t))]
    rw [show a :: (t ++ ws2) = (a :: t) ++ ws2 from rfl, List.reverse_append]
    rw [dropWhile_append_all isPySpace ws2.reverse (a :: t).reverse
      (fun c hc => h2 c (List.mem_reverse.mp hc))]
    have hrev : (a :: t).reverse ≠ [] := by simp
    obtain ⟨b, rb, hb⟩ := List.exists_cons_of_ne_nil hrev
    have hbmem : b ∈ a :: t := by
      rw [← List.mem_reverse, hb]
      exact List.mem_cons_self b rb
    rw [hb, dropWhile_head_false isPySpace b rb (hw b hbmem), ← hb,
      List.reverse_reverse]

/-- Updating one key leaves lookups of other keys unchanged. -/
theorem lookupKey_setKey_ne (c : Config) (k q : Str) (v : JVal) (h : q ≠ k) :
    lookupKey (setKey c k v) q = lookupKey c q := by
  induction c with
  | nil =>
    simp only [setKey, lookupKey]
    rw [if_neg fun hk => h hk.symm]
  | cons p t ih =>
    obtain ⟨k0, v0⟩ := p
    by_cases hk : k0 = k
    · subst hk
      simp only [setKey, if_pos rfl, lookupKey]
      rw [if_neg fun hk => h hk.symm, if_neg fun hk => h hk.symm]
    · simp only [setKey, if_neg hk, lookupKey]
      by_cases hq : k0 = q
      · simp [hq]
      · simp only [if_neg hq]
        exact ih

/-- Updating a key makes its lookup the new value. -/
theorem lookupKey_setKey_self (c : Config) (k : Str) (v : JVal) :
    lookupKey (setKey c k v) k = some v := by
  induction c with
  | nil => simp [setKey, lookupKey]
  | cons p t ih =>
    obtain ⟨k0, v0⟩ := p
    by_cases hk : k0 = k
    · subst hk
      simp [setKey, lookupKey]
    · simp only [setKey, if_neg hk, lookupKey, if_neg hk]
      exact ih

/-- The three-key config update leaves every other key's binding unchanged. -/
theorem updatedConfig_lookup_ne (lt u : Str) (ram : Nat) (cfg : Config) (q : Str)
    (hq1 : q ≠ "offline_username".data) (hq2 : q ≠ "login_type".data)
    (hq3 : q ≠ "ram".data) :
    lookupKey (updatedConfig lt u ram cfg) q = lookupKey cfg q := by
  unfold updatedConfig
  rw [lookupKey_setKey_ne _ _ _ _ hq3, lookupKey_setKey_ne _ _ _ _ hq2]
  by_cases hlt : lt = "offline".data
  · simp only [hlt, if_pos rfl]
    exact lookupKey_setKey_ne _ _ _ _ hq1
  · simp [hlt]

/-- Outside offline mode, the three-key update leaves even `offline_username`
unchanged. -/
theorem updatedConfig_lookup_uname (lt u : Str) (ram : Nat) (cfg : Config)
    (hlt : lt ≠ "offline".data) :
    lookupKey (updatedConfig lt u ram cfg) "offline_username".data =
      lookupKey cfg "offline_username".data := by
  unfold updatedConfig
  rw [lookupKey_setKey_ne _ _ _ _ (by decide), lookupKey_setKey_ne _ _ _ _ (by decide)]
  simp [hlt]

/-- **C9.** For every launch attempt, the configuration update and save touch
only the keys `offline_username` (and that one only in offline mode),
`login_type` and `ram`: any other key's binding in the in-memory config, and
in whatever config is written to the preferences file, is exactly its binding
in the loaded config. -/
theorem C9_config_update_frame (lt u : Str) (gt : GameType) (ram : Nat)
    (ms : Option (Str × Str × Str)) (cfg : Config) (env : Env) (q : Str)
    (hq1 : q ≠ "offline_username".data) (hq2 : q ≠ "login_type".data)
    (hq3 : q ≠ "ram".data) :
    (lookupKey (launch lt u gt ram ms cfg env).config q = lookupKey cfg q ∧
     ∀ c, (launch lt u gt ram ms cfg env).fileWrite = some c →
       lookupKey c q = lookupKey cfg q) ∧
    (lt ≠ "offline".data →
      lookupKey (launch lt u gt ram ms cfg env).config "offline_username".data =
        lookupKey cfg "offline_username".data ∧
      ∀ c, (launch lt u gt ram ms cfg env).fileWrite = some c →
        lookupKey c "offline_username".data =
          lookupKey cfg "offline_username".data) := by
  rcases launch_shape lt u gt ram ms cfg env with (h | h) | ⟨hc, hw, _, _⟩
  · rw [h]
    exact ⟨⟨rfl, by simp⟩, fun _ => ⟨rfl, by simp⟩⟩
  · rw [h]
    exact ⟨⟨rfl, by simp⟩, fun _ => ⟨rfl, by simp⟩⟩
  · constructor
    · constructor
      · rw [hc]
        exact updatedConfig_lookup_ne lt (pyStrip u) ram cfg q hq1 hq2 hq3
      · intro c hcw
        rw [hw] at hcw
        obtain rfl : updatedConfig lt (pyStrip u) ram cfg = c := Option.some.inj hcw
        exact updatedConfig_lookup_ne lt (pyStrip u) ram cfg q hq1 hq2 hq3
    · intro hlt
      constructor
      · rw [hc]
        exact updatedConfig_lookup_uname lt (pyStrip u) ram cfg hlt
      · intro c hcw
        rw [hw] at hcw
        obtain rfl : updatedConfig lt (pyStrip u) ram cfg = c := Option.some.inj hcw
        exact updatedConfig_lookup_uname lt (pyStrip u) ram cfg hlt

/-- Concrete instance of `C9_config_update_frame`: a Microsoft-mode launch
preserves a `theme` key and the stored `offline_username`. -/
theorem C9_config_update_frame_witness :
    ("theme".data ≠ "ram".data) ∧
    lookupKey (launch "microsoft".data "".data .vanilla 4
        (some ("P".data, "i".data, "t".data))
        [("theme".data, JVal.s "dark".data),
         ("offline_username".data, JVal.s "Old".data)] envAllOk).config
      "theme".data = some (JVal.s "dark".data) ∧
    lookupKey (launch "microsoft".data "".data .vanilla 4
        (some ("P".data, "i".data, "t".data))
        [("theme".data, JVal.s "dark".data),
         ("offline_username".data, JVal.s "Old".data)] envAllOk).config
      "offline_username".data = some (JVal.s "Old".data) := by
  refine ⟨by decide, ?_, ?_⟩
  · have h := (C9_config_update_frame "microsoft".data "".data .vanilla 4
      (some ("P".data, "i".data, "t".data))
      [("theme".data, JVal.s "dark".data),
       ("offline_username".data, JVal.s "Old".data)] envAllOk "theme".data
      (by decide) (by decide) (by decide)).1.1
    rw [h]
    decide
  · have h := (C9_config_update_frame "microsoft".data "".data .vanilla 4
      (some ("P".data, "i".data, "t".data))
      [("theme".data, JVal.s "dark".data),
       ("offline_username".data, JVal.s "Old".data)] envAllOk "theme".data
      (by decide) (by decide) (by decide)).2 (by decide)
    rw [h.1]
    decide

/-- An offline launch tail against succeeding install and command calls
produces the offline session and options. -/
theorem launchTail_offline_ok (u : Str) (ram : Nat) (cfg3 : Config) (vid : Str)
    (et : GameType) (calls : List ExtCall) (imp : Bool)
    (inst : Except Str (List Str)) (lat : Except Str Str) (cmd : List Str) :
    launchTail "offline".data u ram none cfg3 vid et calls
        ⟨imp, inst, lat, .ok (), .ok cmd⟩ =
      ⟨.launched ⟨u, offlineId u, []⟩ ⟨u, offlineId u, [], jvmArgs ram⟩ vid et,
       cfg3, some cfg3,
       calls ++ [.installVersion vid] ++ [.getCommand]⟩ := by
  unfold launchTail
  dsimp only
  rw [if_pos rfl]

/-- **C8.** The launch handler strips leading and trailing whitespace from the
entered username before validation, persistence, and session construction:
for every valid core username `w`, the input `ws1 ++ w ++ ws2` with `ws1`,
`ws2` whitespace (at least one nonempty) fails the raw validator, yet the
launch attempt is accepted and launches with username `w`, whose stripped form
is also what is persisted under `offline_username`. -/
theorem C8_username_stripped_before_validation (w ws1 ws2 : Str) (cfg : Config)
    (ram : Nat) (inst : List Str) (latest : Str) (cmd : List Str)
    (hv : validate_username w = true)
    (h1 : ∀ c ∈ ws1, isPySpace c = true) (h2 : ∀ c ∈ ws2, isPySpace c = true)
    (hne1 : ws1 ≠ []) (hne2 : ws2 ≠ []) :
    validate_username (ws1 ++ w ++ ws2) = false ∧
    (launch "offline".data (ws1 ++ w ++ ws2) .vanilla ram none cfg
        ⟨true, .ok inst, .ok latest, .ok (), .ok cmd⟩).result =
      .launched ⟨w, offlineId w, []⟩ ⟨w, offlineId w, [], jvmArgs ram⟩ latest
        .vanilla ∧
    lookupKey (launch "offline".data (ws1 ++ w ++ ws2) .vanilla ram none cfg
        ⟨true, .ok inst, .ok latest, .ok (), .ok cmd⟩).config
      "offline_username".data = some (.s w) := by
  obtain ⟨h3, h16, hall⟩ := (validate_username_iff w).mp hv
  have hw : ∀ c ∈ w, isPySpace c = false :=
    fun c hc => isNameChar_not_space c (hall c hc)
  have hne : w ≠ [] := by
    intro he
    rw [he] at h3
    simp at h3
  have hstrip : pyStrip (ws1 ++ w ++ ws2) = w := pyStrip_pad ws1 w ws2 h1 h2 hw hne
  have hvfalse : validate_username (ws1 ++ w ++ ws2) = false := by
    rw [Bool.eq_false_iff]
    intro hvv
    obtain ⟨a, t, rfl⟩ := List.exists_cons_of_ne_nil hne1
    obtain ⟨-, -, hall2⟩ := (validate_username_iff _).mp hvv
    have hmem : a ∈ (a :: t) ++ w ++ ws2 := by simp
    have hns := isPySpace_not_nameChar a (h1 a (List.mem_cons_self a t))
    rw [hall2 a hmem] at hns
    exact absurd hns (by decide)
  have hcond1 : ¬("offline".data = "offline".data ∧
      validate_username w = false) := by
    rintro ⟨-, hf⟩
    rw [hv] at hf
    exact absurd hf (by decide)
  have hcond2 : ¬("offline".data = "microsoft".data ∧
      (none : Option (Str × Str × Str)) = none) := by
    rintro ⟨hf, -⟩
    exact absurd hf (by decide)
  have hkey : (launch "offline".data (ws1 ++ w ++ ws2) .vanilla ram none cfg
        ⟨true, .ok inst, .ok latest, .ok (), .ok cmd⟩).result =
      .launched ⟨w, offlineId w, []⟩ ⟨w, offlineId w, [], jvmArgs ram⟩ latest
        .vanilla ∧
      (launch "offline".data (ws1 ++ w ++ ws2) .vanilla ram none cfg
        ⟨true, .ok inst, .ok latest, .ok (), .ok cmd⟩).config =
      updatedConfig "offline".data w ram cfg := by
    unfold launch
    dsimp only
    rw [hstrip, if_neg hcond1, if_neg hcond2]
    rw [if_pos rfl]
    unfold launchResolve
    dsimp only
    by_cases hL : latest.isEmpty = true
    · rw [if_pos hL, launchTail_offline_ok]
      exact ⟨rfl, rfl⟩
    · rw [if_neg hL, launchTail_offline_ok]
      exact ⟨rfl, rfl⟩
  refine ⟨hvfalse, hkey.1, ?_⟩
  rw [hkey.2]
  unfold updatedConfig
  rw [if_pos rfl, lookupKey_setKey_ne _ _ _ _ (by decide),
    lookupKey_setKey_ne _ _ _ _ (by decide), lookupKey_setKey_self]

/-- Concrete instance of `C8_username_stripped_before_validation` at
`"  Steve  "`. -/
theorem C8_username_stripped_before_validation_witness :
    validate_username "Steve".data = true ∧
    validate_username ("  ".data ++ "Steve".data ++ "  ".data) = false ∧
    (launch "offline".data ("  ".data ++ "Steve".data ++ "  ".data) .vanilla 4
        none [] ⟨true, .ok [], .ok "1.21.6".data, .ok (), .ok ["java".data]⟩).result =
      .launched ⟨"Steve".data, offlineId "Steve".data, []⟩
        ⟨"Steve".data, offlineId "Steve".data, [], jvmArgs 4⟩ "1.21.6".data
        .vanilla := by
  have h := C8_username_stripped_before_validation "Steve".data "  ".data
    "  ".data [] 4 [] "1.21.6".data ["java".data] (by decide) (by decide)
    (by decide) (by decide) (by decide)
  exact ⟨by decide, h.1, h.2.1⟩

end Melon
